import Mathlib

/-!
Verification development for the `dns-validator` repository.

The Python sources are shallowly embedded as executable Lean definitions.
Network I/O (the external resolver client) is abstracted as a function
argument `resolve : String → ResolveOutcome`, so every theorem quantifies
over all possible resolver behaviours.  Python dictionaries that are only
used for key-value storage are embedded as association lists; Python sets
used only for deduplication are embedded with `List.dedup` (iteration
order of a Python set is implementation defined, and no claim below
depends on it except where explicitly discussed).  Strings are treated at
the level of their character sequences; the character predicates
(`isalnum`, `lower`, whitespace) are modelled on the ASCII fragment.
-/

/-- Result of one DNS query against one server, as produced by the external
`dns.resolver` collaborator: either a list of record value strings, an
NXDOMAIN failure, or some other error with a message. -/
inductive ResolveOutcome where
  | ok (values : List String)
  | nxdomain
  | failure (msg : String)
deriving DecidableEq, Repr

/-- Embedding of the per-server entry stored in `result["servers"][name]` by
`DNSValidator.check_propagation` (src/dns_validator.py).  The floating point
`response_time` field is not modelled; no claim mentions it. -/
structure ServerResult where
  ip : String
  values : List String
  status : String
  errMsg : Option String
deriving DecidableEq, Repr

/-- The fixed roster of public DNS servers from
`DNSValidator.check_propagation` (src/dns_validator.py, lines 91-100). -/
def dns_servers : List (String × String) :=
  [("Google Primary", "8.8.8.8"),
   ("Google Secondary", "8.8.4.4"),
   ("Cloudflare Primary", "1.1.1.1"),
   ("Cloudflare Secondary", "1.0.0.1"),
   ("Quad9", "9.9.9.9"),
   ("OpenDNS", "208.67.222.222"),
   ("Verisign", "64.6.64.6"),
   ("Level3", "4.2.2.1")]

/-- Embedding of the inner `check_server` closure of `check_propagation`
(src/dns_validator.py, lines 111-135): a success yields status `"success"`
with the returned values, NXDOMAIN yields status `"nxdomain"` with an empty
value list, and any other exception yields status `"error"`. -/
def check_server (resolve : String → ResolveOutcome) (server : String × String) :
    String × ServerResult :=
  match resolve server.2 with
  | .ok vs => (server.1, ⟨server.2, vs, "success", none⟩)
  | .nxdomain => (server.1, ⟨server.2, [], "nxdomain", none⟩)
  | .failure e => (server.1, ⟨server.2, [], "error", some e⟩)

/-- Embedding of the dictionary produced by `check_propagation`
(src/dns_validator.py, lines 86-165).  The `servers` mapping is kept as an
association list. -/
structure PropagationResult where
  domain : String
  record_type : String
  expected_value : Option String
  servers : List (String × ServerResult)
  propagated : Bool
  consistency : Bool
deriving DecidableEq, Repr

/-- The `successful_responses` selection of `check_propagation`
(src/dns_validator.py, line 146): the outcomes whose status is `"success"`. -/
def successful_responses (servers : List (String × ServerResult)) : List ServerResult :=
  (servers.map Prod.snd).filter (fun s => s.status == "success")

/-- Number of distinct value-sets among a list of outcomes, mirroring
`len(set(frozenset(values) for values in all_values))` in
`check_propagation` (src/dns_validator.py, line 153): each outcome's value
list is viewed as a set, and distinct such sets are counted. -/
def distinct_value_sets (succ : List ServerResult) : Nat :=
  ((succ.map (fun s => s.values.toFinset)).dedup).length

/-- Python truthiness of the optional `expected_value` argument, as tested
by `if expected_value:` in `check_propagation` (src/dns_validator.py,
line 158): `None` and the empty string are falsy. -/
def pyTruthy (o : Option String) : Bool :=
  match o with
  | none => false
  | some s => !(s == "")

/-- Embedding of `DNSValidator.check_propagation` (src/dns_validator.py,
lines 86-165).  All roster servers are queried (the thread pool only
permutes the order in which the keyed `servers` mapping is filled in, which
no field of the result depends on); then the reduction of lines 145-163
computes the `propagated` and `consistency` flags exactly as the source
does: `propagated` starts true and is cleared when there is no successful
response, or when a truthy expected value is contained in no successful
response's value list; `consistency` starts true and is cleared when more
than one distinct value-set occurs among the successful responses. -/
def check_propagation (resolve : String → ResolveOutcome) (domain : String)
    (record_type : String) (expected_value : Option String) : PropagationResult :=
  let servers := dns_servers.map (check_server resolve)
  let succ := successful_responses servers
  if succ.isEmpty then
    { domain := domain, record_type := record_type, expected_value := expected_value,
      servers := servers, propagated := false, consistency := true }
  else
    let consistency : Bool := !(decide (1 < distinct_value_sets succ))
    let propagated : Bool :=
      if pyTruthy expected_value &&
          !(succ.any (fun s => s.values.contains (expected_value.getD ""))) then
        false
      else
        true
    { domain := domain, record_type := record_type, expected_value := expected_value,
      servers := servers, propagated := propagated, consistency := consistency }

/-- Concrete resolver behaviour used to exhibit the empty-string
expected-value edge case: every server answers successfully with the single
value `"1.2.3.4"`. -/
def resolveAllSame : String → ResolveOutcome :=
  fun _ => .ok ["1.2.3.4"]

/-- Embedding of the dictionary produced by `DNSValidator.check_delegation`
(src/dns_validator.py, lines 39-84). -/
structure DelegationResult where
  domain : String
  authoritative_servers : List String
  parent_servers : List String
  delegation_valid : Bool
  errors : List String
deriving DecidableEq, Repr

/-- The parent-zone name computed by `check_delegation`
(src/dns_validator.py, line 58): `'.'.join(domain.split('.')[1:])`, i.e.
the input with its leftmost label removed. -/
def parent_domain (domain : String) : String :=
  String.intercalate "." ((domain.splitOn ".").drop 1)

/-- Embedding of `DNSValidator.check_delegation` (src/dns_validator.py,
lines 39-84).  NS resolution for the domain itself fills
`authoritative_servers`; the parent zone's NS records are then attempted
when the parent name is non-empty, and any failure there is only logged as
a warning (the inner `except` swallows it).  Validity is the truthiness of
the authoritative server list; NXDOMAIN and other exceptions on the
domain's own resolution each append their error string. -/
def check_delegation (resolve : String → ResolveOutcome) (domain : String) :
    DelegationResult :=
  match resolve domain with
  | .ok ns =>
    let parent := parent_domain domain
    let parent_servers :=
      if parent ≠ "" then
        match resolve parent with
        | .ok ps => ps
        | _ => []
      else []
    if ns ≠ [] then
      ⟨domain, ns, parent_servers, true, []⟩
    else
      ⟨domain, ns, parent_servers, false, ["No authoritative servers found"]⟩
  | .nxdomain => ⟨domain, [], [], false, ["Domain " ++ domain ++ " does not exist"]⟩
  | .failure e => ⟨domain, [], [], false, ["Error checking delegation: " ++ e]⟩

/-- Resolver behaviour for the C6 witness: the domain itself resolves, the
parent zone's NS query fails. -/
def resolveParentFails : String → ResolveOutcome :=
  fun d => if d = "example.com" then .ok ["ns1.example.net."] else .failure "timeout"

/-- Resolver behaviour for the C6 witness: the domain itself resolves with
the same answer, and the parent zone's NS query also succeeds. -/
def resolveParentOk : String → ResolveOutcome :=
  fun d => if d = "example.com" then .ok ["ns1.example.net."] else .ok ["a.gtld-servers.net."]

/-- Boolean test that `p` is a leading segment of `l` (character lists). -/
def hasPre : List Char → List Char → Bool
  | [], _ => true
  | _ :: _, [] => false
  | c :: p, d :: l => c == d && hasPre p l

/-- Boolean test that `p` occurs contiguously somewhere in `l`, modelling
the Python substring test `p in s`. -/
def hasSub (p : List Char) : List Char → Bool
  | [] => p.isEmpty
  | d :: l => hasPre p (d :: l) || hasSub p l

/-- Substring containment on strings, modelling Python `pattern in nameserver`
from `detect_dns_provider` (src/dns_validator.py, line 248). -/
def strHasSub (p s : String) : Bool :=
  hasSub p.data s.data

/-- ASCII model of Python `str.lower`. -/
def strLower (s : String) : String :=
  ⟨s.data.map Char.toLower⟩

/-- Model of Python `str.rstrip('.')`: remove all trailing dots. -/
def rstripDots (s : String) : String :=
  ⟨(s.data.reverse.dropWhile (fun c => c = '.')).reverse⟩

/-- The static provider fingerprint table of `detect_dns_provider`
(src/dns_validator.py, lines 171-225), in source insertion order. -/
def provider_patterns : List (String × List String) :=
  [("Cloudflare", ["cloudflare.com", "ns.cloudflare.com"]),
   ("AWS Route 53", ["awsdns", "amazonaws.com", "amzndns"]),
   ("Google Cloud DNS", ["googledomains.com", "google.com", "ns-cloud"]),
   ("Azure DNS", ["azure-dns.com", "azure-dns.net", "azure-dns.org", "azure-dns.info"]),
   ("DigitalOcean", ["digitalocean.com", "ns1.digitalocean.com", "ns2.digitalocean.com", "ns3.digitalocean.com"]),
   ("Namecheap", ["namecheap.com", "registrar-servers.com"]),
   ("GoDaddy", ["domaincontrol.com", "godaddy.com"]),
   ("Quad9", ["quad9.net"]),
   ("OpenDNS", ["opendns.com", "umbrella.com"]),
   ("Verisign", ["verisign-grs.com"]),
   ("DNS Made Easy", ["dnsmadeeasy.com"]),
   ("Dyn", ["dynect.net", "dyn.com"]),
   ("Hurricane Electric", ["he.net"]),
   ("ClouDNS", ["cloudns.net"]),
   ("Porkbun", ["porkbun.com"]),
   ("Name.com", ["name.com"]),
   ("Domain.com", ["domain.com"]),
   ("Network Solutions", ["worldnic.com", "networksolutions.com"]),
   ("1&1 IONOS", ["1and1.com", "ionos.com", "ui-dns.com"]),
   ("Hostinger", ["hostinger.com"]),
   ("Bluehost", ["bluehost.com"]),
   ("Hover", ["hover.com"]),
   ("Gandi", ["gandi.net"]),
   ("Dynadot", ["dynadot.com"]),
   ("eNom", ["enom.com"]),
   ("Register.com", ["register.com"]),
   ("Tucows", ["tucows.com"]),
   ("FastDomain", ["fastdomain.com"]),
   ("Linode", ["linode.com"]),
   ("Vultr", ["vultr.com"]),
   ("OVH", ["ovh.net", "ovh.com"]),
   ("Hetzner", ["hetzner.com"]),
   ("Scaleway", ["scaleway.com"]),
   ("No-IP", ["no-ip.com"]),
   ("DuckDNS", ["duckdns.org"]),
   ("FreeDNS", ["afraid.org"]),
   ("Zonomi", ["zonomi.com"]),
   ("NS1", ["nsone.net"]),
   ("Constellix", ["constellix.com"]),
   ("UltraDNS", ["ultradns.com", "ultradns.net"]),
   ("Neustar", ["neustar.biz"]),
   ("Easydns", ["easydns.com"]),
   ("Rage4", ["r4ns.com"]),
   ("PowerDNS", ["powerdns.com"]),
   ("BuddyNS", ["buddyns.com"]),
   ("GeoDNS", ["geodns.com"]),
   ("PointDNS", ["pointhq.com"]),
   ("Route53 Resolver", ["resolver.dns-oarc.net"]),
   ("Yandex DNS", ["yandex.net"]),
   ("Selectel", ["selectel.ru"]),
   ("Reg.ru", ["reg.ru"]),
   ("Timeweb", ["timeweb.ru"])]

/-- The nameserver normalisation of `detect_dns_provider`
(src/dns_validator.py, line 241): lower-case, then strip trailing dots. -/
def normalize_nameservers (raw : List String) : List String :=
  raw.map (fun ns => rstripDots (strLower ns))

/-- The providers detected by the matching loop of `detect_dns_provider`
(src/dns_validator.py, lines 244-249), listed in first-detection order:
the source iterates nameservers in order and, for each, the pattern table
in insertion order, adding each matching provider to a Python set.  This
list records the order of insertion into that set; the source then takes
`list(detected_providers)[0]` as the primary provider, whose order is the
set's undefined iteration order, not this insertion order and not table
order. -/
def detected_providers_in_detection_order (nameservers : List String) : List String :=
  nameservers.foldl (fun acc ns =>
    provider_patterns.foldl (fun acc2 pp =>
      if pp.2.any (fun pat => strHasSub pat ns) && !(acc2.contains pp.1) then
        acc2 ++ [pp.1]
      else acc2) acc) []

/-- Primary provider under the source comment's stated intent ("Primary
provider is the first detected"): head of the first-detection order. -/
def primary_provider_first_detected (nameservers : List String) : String :=
  (detected_providers_in_detection_order nameservers).headD "Unknown"

/-- Modelled from the spec: the primary-provider tie-break rule the spec
mandates — the first provider in pattern-table insertion order that has at
least one matching nameserver ("primary = first provider whose pattern
matched, in table order").  Stated from the spec's words for comparison
with the source's behaviour; the source itself has no deterministic rule
here. -/
def primary_provider_table_order (nameservers : List String) : String :=
  match provider_patterns.filter
      (fun pp => nameservers.any (fun ns => pp.2.any (fun pat => strHasSub pat ns))) with
  | [] => "Unknown"
  | pp :: _ => pp.1

/-- Nameserver list for the C5 failing input: the first nameserver matches
GoDaddy's fingerprints, the second matches Cloudflare's. -/
def c5_nameservers : List String :=
  ["ns1.domaincontrol.com", "ns2.cloudflare.com"]

/-- The check kinds with a direct validator-method dispatch arm in
`BulkDomainProcessor._process_single_domain` (src/dns_validator/bulk.py,
lines 101-115), excluding the special-cased `"reverse-dns"` arm. -/
def plain_check_kinds : List String :=
  ["delegation", "propagation", "provider", "dnssec", "security", "certificate", "ipv6"]

/-- Embedding of the per-domain result dictionary built by
`_process_single_domain` (src/dns_validator/bulk.py, lines 91-132).  The
wall-clock `timestamp` field is not modelled; no claim mentions it. -/
structure DomainResult where
  domain : String
  status : String
  checks : List (String × String)
  errors : List String
deriving DecidableEq, Repr

/-- Whether the validator call for check kind `c` raises for `domain`,
under the abstract per-kind validator behaviour `impl` (an `Except.error`
models a raised exception, carrying `str(e)`).  Only the seven plain
dispatch arms can raise into `_process_single_domain`'s outer `except`:
the `"reverse-dns"` arm has its own inner `try/except` that swallows every
exception, and the unknown-kind arm only appends an error string. -/
def check_raises (impl : String → String → Except String String)
    (domain c : String) : Bool :=
  plain_check_kinds.contains c &&
    (match impl c domain with
     | .ok _ => false
     | .error _ => true)

/-- The dispatch loop of `_process_single_domain` (src/dns_validator/bulk.py,
lines 101-128) over the requested check kinds, threading the accumulated
`checks` mapping and `errors` list.  `impl` abstracts the validator method
called for each of the seven plain kinds (the validator methods run
network I/O; an `Except.error` models a raised exception); `rev` abstracts
the whole special-cased `"reverse-dns"` arm, which never raises (its inner
`except Exception` converts any failure into an `{"error": ...}` entry):
`some v` means an entry is recorded, `none` means the resolved A-record
list was empty and no entry is added.  A raise from a plain arm aborts the
loop, sets status `"failed"` and appends the message to the errors list,
keeping the entries accumulated so far.  Returns (status, checks, errors). -/
def run_checks (impl : String → String → Except String String)
    (rev : String → Option String) (domain : String) :
    List String → List (String × String) → List String →
      String × List (String × String) × List String
  | [], cs, es => ("success", cs, es)
  | c :: rest, cs, es =>
    if plain_check_kinds.contains c then
      match impl c domain with
      | .ok v => run_checks impl rev domain rest (cs ++ [(c, v)]) es
      | .error e => ("failed", cs, es ++ [e])
    else if c = "reverse-dns" then
      match rev domain with
      | some v => run_checks impl rev domain rest (cs ++ [("reverse-dns", v)]) es
      | none => run_checks impl rev domain rest cs es
    else
      run_checks impl rev domain rest cs (es ++ ["Unknown check type: " ++ c])

/-- Embedding of `BulkDomainProcessor._process_single_domain`
(src/dns_validator/bulk.py, lines 91-132). -/
def process_single_domain (impl : String → String → Except String String)
    (rev : String → Option String) (checks : List String) (domain : String) :
    DomainResult :=
  let r := run_checks impl rev domain checks [] []
  ⟨domain, r.1, r.2.1, r.2.2⟩

/-- Embedding of the live progress dictionary of `BulkDomainProcessor`
(src/dns_validator/bulk.py, lines 37-44); every mutation of it in the
source is serialized under `progress_lock`, so the batch run is embedded
as a sequential fold over the completion order. -/
structure BatchProgress where
  total : Nat
  completed : Nat
  failed : Nat
  current_domain : String
  errors : List (String × String)
deriving DecidableEq, Repr

/-- Embedding of the summary dictionary built by
`BulkDomainProcessor._generate_summary` (src/dns_validator/bulk.py,
lines 148-176): `successful` is the final `completed` counter.  The
floating-point rate/timing fields are not modelled; no claim mentions
them. -/
structure BatchSummary where
  total_domains : Nat
  successful : Nat
  failed : Nat
  results : List DomainResult
  errors : List (String × String)
deriving DecidableEq, Repr

/-- The per-completion callback step of `process_domains`
(src/dns_validator/bulk.py, lines 60-79): after a future's result is
appended and `completed` is incremented, the progress callback (when
supplied) is invoked still inside the `try`; if it raises, the `except`
arm additionally increments `failed` and records the error — the same
domain is then counted in both counters.  Without a callback the source
calls `_print_progress`, which cannot raise (the loop only runs when
`total > 0`). -/
def cb_raise_update (r : Except String Unit) (domain : String)
    (prog : BatchProgress) : BatchProgress :=
  match r with
  | .ok _ => prog
  | .error e =>
    { prog with failed := prog.failed + 1, errors := prog.errors ++ [(domain, e)] }

/-- Dispatch of the progress callback on the updated progress state. -/
def apply_cb (cb : Option (BatchProgress → Except String Unit)) (domain : String)
    (prog : BatchProgress) : BatchProgress :=
  match cb with
  | none => prog
  | some f => cb_raise_update (f prog) domain prog

/-- One iteration of the `as_completed` loop of `process_domains`
(src/dns_validator/bulk.py, lines 60-79): `_process_single_domain` is a
total function (its outer `except Exception` catches every check
exception), so `future.result()` itself never raises. -/
def batch_step (impl : String → String → Except String String)
    (rev : String → Option String) (checks : List String)
    (cb : Option (BatchProgress → Except String Unit))
    (st : List DomainResult × BatchProgress) (domain : String) :
    List DomainResult × BatchProgress :=
  let result := process_single_domain impl rev checks domain
  let prog2 := { st.2 with completed := st.2.completed + 1, current_domain := domain }
  (st.1 ++ [result], apply_cb cb domain prog2)

/-- The initial accumulator state of `process_domains`
(src/dns_validator/bulk.py, lines 36-44): empty results, counters at zero,
`total` set to the number of input domains. -/
def batch_init (domains : List String) : List DomainResult × BatchProgress :=
  ([], ⟨domains.length, 0, 0, "", []⟩)

/-- Embedding of `BulkDomainProcessor.process_domains`
(src/dns_validator/bulk.py, lines 34-89).  The thread pool submits one
task per input domain and the `as_completed` loop consumes each future
exactly once; `completion_order` models the (scheduler-chosen) order in
which they complete, a permutation of the input list.  All shared-state
mutation is lock-serialized, so the loop is a fold. -/
def process_domains (impl : String → String → Except String String)
    (rev : String → Option String) (checks : List String)
    (domains completion_order : List String)
    (cb : Option (BatchProgress → Except String Unit)) : BatchSummary :=
  let fin := completion_order.foldl (batch_step impl rev checks cb) (batch_init domains)
  ⟨fin.2.total, fin.2.completed, fin.2.failed, fin.1, fin.2.errors⟩

/-- Validator behaviour for counterexamples and witnesses: every check
returns successfully. -/
def implAllOk : String → String → Except String String :=
  fun _ _ => .ok "r"

/-- Validator behaviour whose `delegation` check raises with message
`"boom"`. -/
def implDelegationRaises : String → String → Except String String :=
  fun c _ => if c = "delegation" then .error "boom" else .ok "r"

/-- Reverse-dns branch behaviour returning no entry. -/
def revNone : String → Option String :=
  fun _ => none

/-- A progress callback that always raises, exercising the double-count
path of the batch loop's `except` arm. -/
def cbRaises : Option (BatchProgress → Except String Unit) :=
  some (fun _ => .error "callback boom")

/-- Embedding of the `query_distribution` aggregate dictionary threaded by
`analyze_domain_queries` (src/dns_validator/analytics.py): for each query
type, running (total record count, sample count), (success count, total
count), and (total response time, count) pairs.  Latencies are floats in
the source; they are modelled as naturals, which no claim depends on. -/
structure QueryDist where
  query_counts : List (String × Nat × Nat)
  success_rates : List (String × Nat × Nat)
  average_response_times : List (String × Nat × Nat)
deriving DecidableEq, Repr

/-- Embedding of the `geographic_analysis` aggregate dictionary. -/
structure GeoAnalysis where
  location_frequency : List (String × Nat)
  provider_distribution : List (String × Nat)
  anycast_servers : List String
deriving DecidableEq, Repr

/-- Embedding of the `performance_analysis` aggregate dictionary. -/
structure PerfAnalysis where
  slowest_queries : List (String × Nat)
  response_time_history : List (String × Nat)
deriving DecidableEq, Repr

/-- Embedding of the summary dictionary built by
`_generate_analytics_summary` (src/dns_validator/analytics.py,
lines 488-542). -/
structure AnalyticsSummary where
  total_samples : Nat
  query_type_summary : List (String × Nat × Nat × Nat)
  geographic_locations : List String
  geographic_providers : List String
  anycast_server_count : Nat
  max_response_time_ms : Option Nat
  recommendations : List String
deriving DecidableEq, Repr

/-- Embedding of the analytics result dictionary returned by
`analyze_domain_queries` (src/dns_validator/analytics.py, lines 64-104). -/
structure AnalyticsResult where
  domain : String
  duration_minutes : Nat
  query_distribution : QueryDist
  geographic_analysis : GeoAnalysis
  performance_analysis : PerfAnalysis
  summary : AnalyticsSummary
deriving DecidableEq, Repr

/-- The `low_success_types` selection of `_add_analytics_recommendations`
(src/dns_validator/analytics.py, lines 561-563): query types whose summary
success rate is below 95. -/
def low_success_types (qsummary : List (String × Nat × Nat × Nat)) : List String :=
  (qsummary.filter (fun row => row.2.2.1 < 95)).map Prod.fst

/-- Embedding of `_add_analytics_recommendations`
(src/dns_validator/analytics.py, lines 544-569): the rule-based
recommendation list, with the fallback entry when no rule fires — the
returned list is never empty. -/
def add_analytics_recommendations (maxResp : Nat) (locations : List String)
    (anycast : Nat) (qsummary : List (String × Nat × Nat × Nat)) : List String :=
  let recs : List String :=
    if maxResp > 1000 then
      ["⚠️ High response times detected (>1000ms). Consider optimizing DNS configuration."]
    else []
  let recs := recs ++
    (if locations.length < 2 then
      ["🌍 Consider using geographically distributed DNS servers for better performance."]
    else [])
  let recs := recs ++
    (if anycast = 0 then
      ["🚀 Consider using anycast DNS services for improved global performance."]
    else [])
  let lows := low_success_types qsummary
  let recs := recs ++
    (if lows ≠ [] then
      ["❌ Low success rates for query types: " ++ String.intercalate ", " lows]
    else [])
  if recs = [] then ["✅ DNS configuration appears to be performing well!"] else recs

/-- Embedding of `_generate_analytics_summary`
(src/dns_validator/analytics.py, lines 488-542).  Averages and rates use
natural division in place of the source's float arithmetic and rounding;
no claim depends on those values.  `max_response_time_ms` is present only
when `slowest_queries` is truthy, mirroring the guarded update of
`performance_summary`. -/
def generate_analytics_summary (qd : QueryDist) (geo : GeoAnalysis)
    (perf : PerfAnalysis) (sample_count : Nat) : AnalyticsSummary :=
  let qsummary : List (String × Nat × Nat × Nat) :=
    if qd.query_counts ≠ [] then
      qd.query_counts.map (fun row =>
        let qtype := row.1
        let avg := if row.2.2 > 0 then row.2.1 / row.2.2 else 0
        let sr :=
          match qd.success_rates.lookup qtype with
          | some p => if p.2 > 0 then p.1 * 100 / p.2 else 0
          | none => 0
        let rt :=
          match qd.average_response_times.lookup qtype with
          | some p => if p.2 > 0 then p.1 / p.2 else 0
          | none => 0
        (qtype, avg, sr, rt))
    else []
  let locations := geo.location_frequency.map Prod.fst
  let providers := geo.provider_distribution.map Prod.fst
  let anycast := geo.anycast_servers.length
  let maxResp : Option Nat :=
    if perf.slowest_queries ≠ [] then
      some (((perf.slowest_queries.map Prod.snd).filter (fun t => 0 < t)).foldl max 0)
    else none
  ⟨sample_count, qsummary, locations, providers, anycast, maxResp,
    add_analytics_recommendations (maxResp.getD 0) locations anycast qsummary⟩

/-- The sampling loop of `analyze_domain_queries`
(src/dns_validator/analytics.py, lines 67-97), modelled against an
abstract wall clock: `clock i` is the value returned by the i-th
`datetime.now()` reading that the loop condition consumes (reading 0 fixed
`end_time`).  The per-sample network collection and the four `_update_*`
aggregations are abstracted as `upd`, folding the sample index into the
aggregate triple.  `fuel` bounds the number of iterations — a modelling
artifact for a loop whose termination depends on real time; every theorem
below holds for every fuel. -/
def analytics_loop (clock : Nat → Nat) (end_time : Nat)
    (upd : QueryDist × GeoAnalysis × PerfAnalysis → Nat →
      QueryDist × GeoAnalysis × PerfAnalysis) :
    Nat → Nat → Nat → QueryDist × GeoAnalysis × PerfAnalysis →
      Nat × (QueryDist × GeoAnalysis × PerfAnalysis)
  | 0, _, count, aggs => (count, aggs)
  | fuel + 1, i, count, aggs =>
    if clock i < end_time then
      analytics_loop clock end_time upd fuel (i + 1) (count + 1) (upd aggs (count + 1))
    else (count, aggs)

/-- Embedding of `DNSQueryAnalytics.analyze_domain_queries`
(src/dns_validator/analytics.py, lines 64-104): `end_time` is the clock
reading at entry plus the requested duration (in clock ticks,
`duration_minutes * 60`), the `while datetime.now() < end_time` loop folds
samples into the aggregates, and the summary is generated from the final
aggregates and the sample count. -/
def analyze_domain_queries (clock : Nat → Nat) (fuel : Nat) (domain : String)
    (duration_minutes : Nat)
    (upd : QueryDist × GeoAnalysis × PerfAnalysis → Nat →
      QueryDist × GeoAnalysis × PerfAnalysis) : AnalyticsResult :=
  let end_time := clock 0 + duration_minutes * 60
  let init : QueryDist × GeoAnalysis × PerfAnalysis := (⟨[], [], []⟩, ⟨[], [], []⟩, ⟨[], []⟩)
  let r := analytics_loop clock end_time upd fuel 1 0 init
  ⟨domain, duration_minutes, r.2.1, r.2.2.1, r.2.2.2,
    generate_analytics_summary r.2.1 r.2.2.1 r.2.2.2 r.1⟩

/-- Trivial aggregate update used in the C8 counterexample and witness. -/
def updId : QueryDist × GeoAnalysis × PerfAnalysis → Nat →
    QueryDist × GeoAnalysis × PerfAnalysis :=
  fun a _ => a

/-- ASCII model of the Python whitespace class used by `str.strip` and
`str.split` (src/dns_validator/utils.py, src/dns_validator/bulk.py). -/
def pyIsSpace (c : Char) : Bool :=
  decide (c.toNat = 32 ∨ c.toNat = 9 ∨ c.toNat = 10 ∨ c.toNat = 13 ∨
    c.toNat = 11 ∨ c.toNat = 12)

/-- Model of Python `str.strip()`: drop whitespace from both ends. -/
def stripWs (l : List Char) : List Char :=
  ((l.dropWhile pyIsSpace).reverse.dropWhile pyIsSpace).reverse

/-- ASCII model of Python `str.lower` on one character: `A`-`Z` maps to
the character 32 code points higher, everything else is unchanged. -/
def pyToLower (c : Char) : Char :=
  if h : 65 ≤ c.toNat ∧ c.toNat ≤ 90 then
    Char.ofNatAux (c.toNat + 32) (Or.inl (by omega))
  else c

/-- Model of Python `str.lower` on a character list. -/
def pyLower (l : List Char) : List Char :=
  l.map pyToLower

/-- Model of Python `str.split(sep)` for a one-character separator:
splitting the empty string yields one empty part, and each separator
occurrence starts a new part. -/
def splitOnChar (sep : Char) : List Char → List (List Char)
  | [] => [[]]
  | c :: rest =>
    match splitOnChar sep rest with
    | [] => if c = sep then [[], []] else [[c]]
    | h :: t => if c = sep then [] :: h :: t else (c :: h) :: t

/-- Accumulator loop for Python `str.split()` with no separator: runs of
whitespace delimit tokens and produce no empty tokens. -/
def splitWsAux : List Char → List Char → List (List Char)
  | [], acc => if acc.isEmpty then [] else [acc.reverse]
  | c :: rest, acc =>
    if pyIsSpace c then
      (if acc.isEmpty then [] else [acc.reverse]) ++ splitWsAux rest []
    else splitWsAux rest (c :: acc)

/-- Model of Python `str.split()` (whitespace split, empty tokens
discarded), as used on each line by `_parse_domains_from_text`
(src/dns_validator/bulk.py, line 358). -/
def splitWs (l : List Char) : List (List Char) :=
  splitWsAux l []

/-- Replacement of every occurrence of one character by another, modelling
Python `str.replace` for one-character arguments. -/
def replaceChar (a b : Char) (l : List Char) : List Char :=
  l.map (fun c => if c = a then b else c)

/-- ASCII model of Python `str.isalnum` on one character. -/
def pyIsAlnumChar (c : Char) : Bool :=
  decide ((65 ≤ c.toNat ∧ c.toNat ≤ 90) ∨ (97 ≤ c.toNat ∧ c.toNat ≤ 122) ∨
    (48 ≤ c.toNat ∧ c.toNat ≤ 57))

/-- ASCII model of Python `str.isalnum` on a character list: false on the
empty string, as in Python. -/
def pyIsAlnumStr (l : List Char) : Bool :=
  !l.isEmpty && l.all pyIsAlnumChar

/-- The per-label test of `is_valid_domain` (src/dns_validator/utils.py,
lines 38-45): non-empty, at most 63 characters, alphanumeric after
removing every `-` and `_`, and neither starting nor ending with `-`. -/
def validLabel (l : List Char) : Bool :=
  !l.isEmpty && decide (l.length ≤ 63) &&
    pyIsAlnumStr (l.filter (fun c => !(c == '-' || c == '_'))) &&
    !(l.head? == some '-') && !(l.getLast? == some '-')

/-- The dot-separated labels examined by `is_valid_domain`
(src/dns_validator/utils.py, lines 30-35): one trailing dot is removed,
then the string splits on dots. -/
def domain_labels (d : List Char) : List (List Char) :=
  splitOnChar '.' (if d.getLast? == some '.' then d.dropLast else d)

/-- Embedding of `is_valid_domain` (src/dns_validator/utils.py,
lines 17-47): length cap of 253 checked before removing one trailing dot,
at least two dot-separated labels, every label valid. -/
def is_valid_domain (d : List Char) : Bool :=
  if d.isEmpty || decide (d.length > 253) then false
  else if decide ((domain_labels d).length < 2) then false
  else (domain_labels d).all validLabel

/-- The protocol-prefix removal of `clean_domain_list`
(src/dns_validator/utils.py, lines 213-215): under the
`startswith(('http://', 'https://'))` guard, `split('://', 1)[1]` removes
exactly the seven- or eight-character prefix, because the guaranteed
prefix contains the first occurrence of `://`. -/
def strip_protocol (l : List Char) : List Char :=
  if hasPre ("http://".data) l then l.drop 7
  else if hasPre ("https://".data) l then l.drop 8
  else l

/-- The path removal of `clean_domain_list` (src/dns_validator/utils.py,
lines 216-218): `split('/', 1)[0]` keeps the part before the first slash. -/
def strip_path (l : List Char) : List Char :=
  if l.contains '/' then l.takeWhile (fun c => !(c == '/')) else l

/-- The port removal of `clean_domain_list` (src/dns_validator/utils.py,
lines 219-221): applied when the string contains a colon and the external
`ipaddress`-based IPv6 test (abstracted as `ipv6p`) rejects it;
`split(':', 1)[0]` keeps the part before the first colon. -/
def strip_port (ipv6p : List Char → Bool) (l : List Char) : List Char :=
  if l.contains ':' && !(ipv6p l) then l.takeWhile (fun c => !(c == ':')) else l

/-- The per-element transformation of `clean_domain_list`
(src/dns_validator/utils.py, lines 208-224): strip, lower-case, remove
protocol prefix, path and port, then keep the result only when non-empty
and a valid domain.  The `isinstance(domain, str)` guard is vacuous in the
typed embedding. -/
def clean_steps (ipv6p : List Char → Bool) (d : List Char) : List Char :=
  strip_port ipv6p (strip_path (strip_protocol (pyLower (stripWs d))))

/-- The guarded keep of `clean_domain_list` (src/dns_validator/utils.py,
line 223): the cleaned string is kept only when truthy and a valid
domain. -/
def clean_one_domain (ipv6p : List Char → Bool) (d : List Char) : Option (List Char) :=
  if !(clean_steps ipv6p d).isEmpty && is_valid_domain (clean_steps ipv6p d) then
    some (clean_steps ipv6p d)
  else none

/-- Embedding of `clean_domain_list` (src/dns_validator/utils.py,
lines 200-227).  The source returns `list(set(cleaned))`, whose iteration
order is implementation defined; `dedup` is the deterministic stand-in
with the same element set, and no claim depends on the order. -/
def clean_domain_list (ipv6p : List Char → Bool) (domains : List (List Char)) :
    List (List Char) :=
  (domains.filterMap (clean_one_domain ipv6p)).dedup

/-- The tokenisation of `_parse_domains_from_text`
(src/dns_validator/bulk.py, lines 345-361): commas, semicolons and tabs
become newlines, the text splits on newlines, each line is stripped,
blank lines and lines starting with `#` are skipped, and the surviving
lines split on whitespace into tokens. -/
def text_tokens (text : List Char) : List (List Char) :=
  let text2 := replaceChar '\t' '\n' (replaceChar ';' '\n' (replaceChar ',' '\n' text))
  (splitOnChar '\n' text2).foldl (fun acc line =>
    let l := stripWs line
    if !l.isEmpty && !(hasPre ("#".data) l) then acc ++ splitWs l else acc) []

/-- Embedding of `_parse_domains_from_text` (src/dns_validator/bulk.py,
lines 345-361): tokenise, then clean and deduplicate the domain list. -/
def parse_domains_from_text (ipv6p : List Char → Bool) (text : List Char) :
    List (List Char) :=
  clean_domain_list ipv6p (text_tokens text)

/-- C1: a PropagationResult's consistency flag is false iff the number of
distinct value-sets among the outcomes with status `success` is greater
than one; in particular it is true when there are zero successful outcomes
or all successful outcomes return the same value-set. -/
theorem C1_consistency_iff (resolve : String → ResolveOutcome)
    (domain record_type : String) (expected_value : Option String) :
    (check_propagation resolve domain record_type expected_value).consistency = false ↔
      1 < distinct_value_sets
        (successful_responses
          (check_propagation resolve domain record_type expected_value).servers) := by
  unfold check_propagation
  by_cases h : (successful_responses (dns_servers.map (check_server resolve))).isEmpty
  · simp only [h, if_pos]
    simp only [List.isEmpty_iff] at h
    simp [h, distinct_value_sets]
  · simp only [h, Bool.false_eq_true, if_neg, not_false_iff]
    simp

/-- C2 counterexample: with every server succeeding with value list
`["1.2.3.4"]` and the expected value supplied as the empty string, there
are successful outcomes, none of whose value lists contains the expected
value, yet `propagated` is `true` — the source guard `if expected_value:`
treats an empty-string expected value as absent, contradicting the claimed
iff. -/
theorem C2_counterexample :
    (check_propagation resolveAllSame "example.com" "A" (some "")).propagated = true ∧
    (some "" : Option String).isSome = true ∧
    successful_responses
      (check_propagation resolveAllSame "example.com" "A" (some "")).servers ≠ [] ∧
    ∀ s ∈ successful_responses
        (check_propagation resolveAllSame "example.com" "A" (some "")).servers,
      "" ∉ s.values := by
  refine ⟨by decide, rfl, by decide, by decide⟩

/-- Helper: an `if c then false else true` expression is false exactly when
its condition holds. -/
theorem ite_false_true_eq_false {c : Prop} [Decidable c] :
    ((if c then false else true) = false) ↔ c := by
  split <;> simp_all

/-- Helper: Boolean characterisation of the `propagated` field of
`check_propagation`, following the source reduction literally. -/
theorem propagated_bool_iff (resolve : String → ResolveOutcome)
    (domain record_type : String) (expected_value : Option String) :
    (check_propagation resolve domain record_type expected_value).propagated = false ↔
      (successful_responses
          (check_propagation resolve domain record_type expected_value).servers = [] ∨
        (pyTruthy expected_value = true ∧
          (successful_responses
              (check_propagation resolve domain record_type expected_value).servers).any
            (fun s => s.values.contains (expected_value.getD "")) = false)) := by
  unfold check_propagation
  by_cases h : (successful_responses (dns_servers.map (check_server resolve))).isEmpty
  · simp only [h, if_pos]
    simp only [List.isEmpty_iff] at h
    simp [h]
  · simp only [h, Bool.false_eq_true, if_neg, not_false_iff]
    simp only [List.isEmpty_iff] at h
    rw [ite_false_true_eq_false]
    simp [h, Bool.and_eq_true, Bool.not_eq_true']

/-- C2 amended: `propagated` is false iff there are zero success outcomes,
or a non-empty expected value was supplied and no successful outcome's
value list contains it verbatim (an expected value equal to the empty
string is treated as absent by the source's truthiness test); one
successful outcome containing the expected value makes `propagated` true
even if other successful outcomes do not contain it. -/
theorem C2_propagated_iff (resolve : String → ResolveOutcome)
    (domain record_type : String) (expected_value : Option String) :
    (check_propagation resolve domain record_type expected_value).propagated = false ↔
      (successful_responses
          (check_propagation resolve domain record_type expected_value).servers = [] ∨
        ∃ e, expected_value = some e ∧ e ≠ "" ∧
          ∀ s ∈ successful_responses
              (check_propagation resolve domain record_type expected_value).servers,
            e ∉ s.values) := by
  rw [propagated_bool_iff]
  refine or_congr Iff.rfl ?_
  cases expected_value with
  | none => simp [pyTruthy]
  | some e =>
    by_cases hne : e = ""
    · subst hne
      simp [pyTruthy]
    · simp only [pyTruthy, Option.getD_some, Option.some.injEq]
      constructor
      · rintro ⟨-, hany⟩
        refine ⟨e, rfl, hne, ?_⟩
        simp only [List.any_eq_false] at hany
        intro s hs hmem
        have h2 := hany s hs
        rw [List.contains_eq_any_beq] at h2
        apply h2
        rw [List.any_eq_true]
        exact ⟨e, hmem, by simp⟩
      · rintro ⟨e', he', hne', hall⟩
        subst he'
        refine ⟨by simp [hne], ?_⟩
        simp only [List.any_eq_false]
        intro s hs
        rw [List.contains_eq_any_beq]
        intro h3
        rw [List.any_eq_true] at h3
        obtain ⟨a, ha, hbeq⟩ := h3
        exact hall s hs (by rw [beq_iff_eq.mp hbeq]; exact ha)

/-- C6: delegation validity holds iff resolving NS records for the domain
itself succeeds with a non-empty authoritative server list, and both the
errors list and the validity flag depend only on the domain's own
resolution — a parent-zone resolution failure (or any change in the parent
outcome) adds no error entry and never changes `delegation_valid`. -/
theorem C6_delegation_valid (resolve resolve2 : String → ResolveOutcome) (domain : String)
    (hagree : resolve domain = resolve2 domain) :
    ((check_delegation resolve domain).delegation_valid = true ↔
      ∃ vs, resolve domain = .ok vs ∧ vs ≠ []) ∧
    (check_delegation resolve domain).errors = (check_delegation resolve2 domain).errors ∧
    (check_delegation resolve domain).delegation_valid =
      (check_delegation resolve2 domain).delegation_valid := by
  unfold check_delegation
  rw [← hagree]
  cases h : resolve domain with
  | ok ns =>
    by_cases hns : ns = []
    · subst hns
      simp
    · simp only [hns, if_neg, ne_eq, not_false_iff, if_pos]
      refine ⟨by simp [hns], trivial, trivial⟩
  | nxdomain => simp
  | failure e => simp

/-- C6 witness: at the concrete input where the parent zone's NS query
fails for one resolver and succeeds for the other, validity and errors are
unaffected, and validity holds because the domain's own NS list is
non-empty. -/
theorem C6_delegation_valid_witness :
    ((check_delegation resolveParentFails "example.com").delegation_valid = true ↔
      ∃ vs, resolveParentFails "example.com" = .ok vs ∧ vs ≠ []) ∧
    (check_delegation resolveParentFails "example.com").errors =
      (check_delegation resolveParentOk "example.com").errors ∧
    (check_delegation resolveParentFails "example.com").delegation_valid =
      (check_delegation resolveParentOk "example.com").delegation_valid :=
  C6_delegation_valid resolveParentFails resolveParentOk "example.com" (by decide)

/-- C5: divergence witness for the primary-provider rule.  On nameservers
`["ns1.domaincontrol.com", "ns2.cloudflare.com"]` the set of detected
providers is exactly GoDaddy and Cloudflare (in first-detection order
GoDaddy first), so the rule the code's own comment states ("first
detected") yields GoDaddy, while the table-insertion-order rule the claim
states yields Cloudflare; the code itself returns `list(set(...))[0]`,
an element in undefined set-iteration order. -/
theorem C5_primary_provider_divergence :
    detected_providers_in_detection_order c5_nameservers = ["GoDaddy", "Cloudflare"] ∧
    primary_provider_first_detected c5_nameservers = "GoDaddy" ∧
    primary_provider_table_order c5_nameservers = "Cloudflare" ∧
    primary_provider_first_detected c5_nameservers ≠
      primary_provider_table_order c5_nameservers := by
  refine ⟨by decide, by decide, by decide, by decide⟩

/-- Helper: `apply_cb` never changes the `total` counter. -/
theorem apply_cb_total (cb : Option (BatchProgress → Except String Unit))
    (d : String) (p : BatchProgress) : (apply_cb cb d p).total = p.total := by
  cases cb with
  | none => rfl
  | some f =>
    show (cb_raise_update (f p) d p).total = p.total
    cases hf : f p <;> rfl

/-- Helper: `apply_cb` never changes the `completed` counter. -/
theorem apply_cb_completed (cb : Option (BatchProgress → Except String Unit))
    (d : String) (p : BatchProgress) : (apply_cb cb d p).completed = p.completed := by
  cases cb with
  | none => rfl
  | some f =>
    show (cb_raise_update (f p) d p).completed = p.completed
    cases hf : f p <;> rfl

/-- Helper: `apply_cb` can only increase the `failed` counter. -/
theorem apply_cb_failed_le (cb : Option (BatchProgress → Except String Unit))
    (d : String) (p : BatchProgress) : p.failed ≤ (apply_cb cb d p).failed := by
  cases cb with
  | none => exact le_refl _
  | some f =>
    show p.failed ≤ (cb_raise_update (f p) d p).failed
    cases hf : f p with
    | ok v => exact le_refl _
    | error e => exact Nat.le_succ _

/-- Helper: with a callback that never raises, `apply_cb` leaves `failed`
unchanged. -/
theorem apply_cb_failed_noraise (cb : Option (BatchProgress → Except String Unit))
    (d : String) (p : BatchProgress)
    (hcb : ∀ f p2, cb = some f → f p2 = Except.ok ()) :
    (apply_cb cb d p).failed = p.failed := by
  cases cb with
  | none => rfl
  | some f =>
    show (cb_raise_update (f p) d p).failed = p.failed
    rw [hcb f p rfl]
    rfl


/-- Helper: the batch fold appends exactly one `_process_single_domain`
result per completed domain, in completion order, whatever the callback
does. -/
theorem batch_foldl_results (impl : String → String → Except String String)
    (rev : String → Option String) (checks : List String)
    (cb : Option (BatchProgress → Except String Unit)) :
    ∀ (l : List String) (st : List DomainResult × BatchProgress),
      (l.foldl (batch_step impl rev checks cb) st).1 =
        st.1 ++ l.map (process_single_domain impl rev checks) := by
  intro l
  induction l with
  | nil => intro st; simp
  | cons d t ih =>
    intro st
    rw [List.foldl_cons, ih]
    simp [batch_step]

/-- Helper: the batch fold increments `completed` once per completed
domain, whatever the callback does. -/
theorem batch_foldl_completed (impl : String → String → Except String String)
    (rev : String → Option String) (checks : List String)
    (cb : Option (BatchProgress → Except String Unit)) :
    ∀ (l : List String) (st : List DomainResult × BatchProgress),
      (l.foldl (batch_step impl rev checks cb) st).2.completed =
        st.2.completed + l.length := by
  intro l
  induction l with
  | nil => intro st; simp
  | cons d t ih =>
    intro st
    rw [List.foldl_cons, ih]
    show (apply_cb cb d { st.2 with completed := st.2.completed + 1, current_domain := d }).completed
      + t.length = _
    rw [apply_cb_completed]
    simp [Nat.add_comm, Nat.add_assoc, Nat.add_left_comm]

/-- Helper: the batch fold never changes `total`. -/
theorem batch_foldl_total (impl : String → String → Except String String)
    (rev : String → Option String) (checks : List String)
    (cb : Option (BatchProgress → Except String Unit)) :
    ∀ (l : List String) (st : List DomainResult × BatchProgress),
      (l.foldl (batch_step impl rev checks cb) st).2.total = st.2.total := by
  intro l
  induction l with
  | nil => intro st; rfl
  | cons d t ih =>
    intro st
    rw [List.foldl_cons, ih]
    show (apply_cb cb d { st.2 with completed := st.2.completed + 1, current_domain := d }).total = _
    rw [apply_cb_total]

/-- Helper: the `failed` counter of the batch fold never decreases. -/
theorem batch_foldl_failed_le (impl : String → String → Except String String)
    (rev : String → Option String) (checks : List String)
    (cb : Option (BatchProgress → Except String Unit)) :
    ∀ (l : List String) (st : List DomainResult × BatchProgress),
      st.2.failed ≤ (l.foldl (batch_step impl rev checks cb) st).2.failed := by
  intro l
  induction l with
  | nil => intro st; exact le_refl _
  | cons d t ih =>
    intro st
    rw [List.foldl_cons]
    refine le_trans ?_ (ih _)
    show st.2.failed ≤
      (apply_cb cb d { st.2 with completed := st.2.completed + 1, current_domain := d }).failed
    exact apply_cb_failed_le cb d { st.2 with completed := st.2.completed + 1, current_domain := d }

/-- Helper: with a callback that never raises, the batch fold leaves
`failed` unchanged. -/
theorem batch_foldl_failed_noraise (impl : String → String → Except String String)
    (rev : String → Option String) (checks : List String)
    (cb : Option (BatchProgress → Except String Unit))
    (hcb : ∀ f p2, cb = some f → f p2 = Except.ok ()) :
    ∀ (l : List String) (st : List DomainResult × BatchProgress),
      (l.foldl (batch_step impl rev checks cb) st).2.failed = st.2.failed := by
  intro l
  induction l with
  | nil => intro st; rfl
  | cons d t ih =>
    intro st
    rw [List.foldl_cons, ih]
    show (apply_cb cb d { st.2 with completed := st.2.completed + 1, current_domain := d }).failed = _
    exact apply_cb_failed_noraise _ _ _ hcb

/-- Helper: a leading run of non-raising checks only accumulates entries,
leaving a tail call on the remaining kinds. -/
theorem run_checks_no_raise_pre (impl : String → String → Except String String)
    (rev : String → Option String) (domain : String) :
    ∀ (pre rest : List String) (cs : List (String × String)) (es : List String),
      (∀ c ∈ pre, check_raises impl domain c = false) →
      ∃ cs2 es2, run_checks impl rev domain (pre ++ rest) cs es =
        run_checks impl rev domain rest cs2 es2 := by
  intro pre
  induction pre with
  | nil => intro rest cs es _; exact ⟨cs, es, rfl⟩
  | cons c t ih =>
    intro rest cs es h
    have hc := h c (List.mem_cons_self _ _)
    have ht : ∀ c2 ∈ t, check_raises impl domain c2 = false :=
      fun c2 hc2 => h c2 (List.mem_cons_of_mem _ hc2)
    rw [List.cons_append]
    by_cases hp : plain_check_kinds.contains c = true
    · unfold check_raises at hc
      rw [hp] at hc
      cases him : impl c domain with
      | ok v =>
        simp only [run_checks, hp, if_true, him]
        exact ih rest _ _ ht
      | error e =>
        rw [him] at hc
        simp at hc
    · by_cases hr : c = "reverse-dns"
      · subst hr
        cases hrev : rev domain with
        | some v =>
          simp only [run_checks, hp, Bool.false_eq_true, if_false, if_pos rfl, hrev]
          exact ih rest _ _ ht
        | none =>
          simp only [run_checks, hp, Bool.false_eq_true, if_false, if_pos rfl, hrev]
          exact ih rest _ _ ht
      · simp only [run_checks, hp, Bool.false_eq_true, if_false, hr, if_neg, ite_false]
        exact ih rest _ _ ht

/-- Helper: when no requested check raises, the status is `"success"`. -/
theorem run_checks_status_ok (impl : String → String → Except String String)
    (rev : String → Option String) (domain : String) :
    ∀ (l : List String) (cs : List (String × String)) (es : List String),
      (∀ c ∈ l, check_raises impl domain c = false) →
      (run_checks impl rev domain l cs es).1 = "success" := by
  intro l
  induction l with
  | nil => intro cs es _; rfl
  | cons c t ih =>
    intro cs es h
    have hc := h c (List.mem_cons_self _ _)
    have ht : ∀ c2 ∈ t, check_raises impl domain c2 = false :=
      fun c2 hc2 => h c2 (List.mem_cons_of_mem _ hc2)
    by_cases hp : plain_check_kinds.contains c = true
    · unfold check_raises at hc
      rw [hp] at hc
      cases him : impl c domain with
      | ok v =>
        simp only [run_checks, hp, if_true, him]
        exact ih _ _ ht
      | error e =>
        rw [him] at hc
        simp at hc
    · by_cases hr : c = "reverse-dns"
      · subst hr
        cases hrev : rev domain with
        | some v =>
          simp only [run_checks, hp, Bool.false_eq_true, if_false, if_pos rfl, hrev]
          exact ih _ _ ht
        | none =>
          simp only [run_checks, hp, Bool.false_eq_true, if_false, if_pos rfl, hrev]
          exact ih _ _ ht
      · simp only [run_checks, hp, Bool.false_eq_true, if_false, hr, if_neg, ite_false]
        exact ih _ _ ht

/-- Helper: the dispatch loop never removes previously accumulated error
strings. -/
theorem run_checks_errors_mono (impl : String → String → Except String String)
    (rev : String → Option String) (domain : String) :
    ∀ (l : List String) (cs : List (String × String)) (es : List String) (x : String),
      x ∈ es → x ∈ (run_checks impl rev domain l cs es).2.2 := by
  intro l
  induction l with
  | nil => intro cs es x hx; exact hx
  | cons c t ih =>
    intro cs es x hx
    by_cases hp : plain_check_kinds.contains c = true
    · cases him : impl c domain with
      | ok v =>
        simp only [run_checks, hp, if_true, him]
        exact ih _ _ _ hx
      | error e =>
        simp only [run_checks, hp, if_true, him]
        exact List.mem_append_left _ hx
    · by_cases hr : c = "reverse-dns"
      · subst hr
        cases hrev : rev domain with
        | some v =>
          simp only [run_checks, hp, Bool.false_eq_true, if_false, if_pos rfl, hrev]
          exact ih _ _ _ hx
        | none =>
          simp only [run_checks, hp, Bool.false_eq_true, if_false, if_pos rfl, hrev]
          exact ih _ _ _ hx
      · simp only [run_checks, hp, Bool.false_eq_true, if_false, hr, if_neg, ite_false]
        exact ih _ _ _ (List.mem_append_left _ hx)

/-- Helper: every entry of the accumulated checks mapping either was
already accumulated, or has a plain dispatch kind, or the reverse-dns kind
as its key. -/
theorem run_checks_checks_keys (impl : String → String → Except String String)
    (rev : String → Option String) (domain : String) :
    ∀ (l : List String) (cs : List (String × String)) (es : List String)
      (p : String × String), p ∈ (run_checks impl rev domain l cs es).2.1 →
      p ∈ cs ∨ plain_check_kinds.contains p.1 = true ∨ p.1 = "reverse-dns" := by
  intro l
  induction l with
  | nil => intro cs es p hp; exact Or.inl hp
  | cons c t ih =>
    intro cs es p hp
    by_cases hpc : plain_check_kinds.contains c = true
    · cases him : impl c domain with
      | ok v =>
        simp only [run_checks, hpc, if_true, him] at hp
        rcases ih _ _ _ hp with hin | h2
        · rcases List.mem_append.mp hin with h3 | h3
          · exact Or.inl h3
          · rcases List.mem_singleton.mp h3 with rfl
            exact Or.inr (Or.inl hpc)
        · exact Or.inr h2
      | error e =>
        simp only [run_checks, hpc, if_true, him] at hp
        exact Or.inl hp
    · by_cases hr : c = "reverse-dns"
      · subst hr
        cases hrev : rev domain with
        | some v =>
          simp only [run_checks, hpc, Bool.false_eq_true, if_false, if_pos rfl, hrev] at hp
          rcases ih _ _ _ hp with hin | h2
          · rcases List.mem_append.mp hin with h3 | h3
            · exact Or.inl h3
            · rcases List.mem_singleton.mp h3 with rfl
              exact Or.inr (Or.inr rfl)
          · exact Or.inr h2
        | none =>
          simp only [run_checks, hpc, Bool.false_eq_true, if_false, if_pos rfl, hrev] at hp
          exact ih _ _ _ hp
      · simp only [run_checks, hpc, Bool.false_eq_true, if_false, hr, if_neg, ite_false] at hp
        exact ih _ _ _ hp

/-- Helper: a string that is not a member of a list is not contained in it. -/
theorem contains_false_of_not_mem {l : List String} {a : String} (h : a ∉ l) :
    l.contains a = false := by
  cases hc : l.contains a
  · rfl
  · exfalso
    rw [List.contains_eq_any_beq, List.any_eq_true] at hc
    obtain ⟨b, hb, hbeq⟩ := hc
    exact h (by rw [beq_iff_eq.mp hbeq]; exact hb)

/-- C3 counterexample: with one input domain and a progress callback that
raises, the batch loop counts the domain as completed and then, in its
`except` arm, also as failed, so the final counters sum to 2 while the
batch has a single domain — the claimed `completed + failed == N` fails. -/
theorem C3_counterexample :
    (process_domains implAllOk revNone ["delegation"] ["a.com"] ["a.com"] cbRaises).successful +
        (process_domains implAllOk revNone ["delegation"] ["a.com"] ["a.com"] cbRaises).failed = 2 ∧
    (["a.com"] : List String).length = 1 := by
  refine ⟨by decide, rfl⟩

/-- C3 amended: provided the progress callback, when supplied, never
raises, a completed batch of N domains ends with `completed + failed = N`,
the results list has exactly one DomainResult per input domain (in some
completion order), and along every prefix of the run the counters sum to
at most N and never decrease towards their final values.  (A raising
callback instead double-counts its domain, see the counterexample.) -/
theorem C3_batch_progress (impl : String → String → Except String String)
    (rev : String → Option String) (checks domains order : List String)
    (cb : Option (BatchProgress → Except String Unit))
    (hperm : order.Perm domains)
    (hcb : ∀ f p, cb = some f → f p = Except.ok ()) :
    (process_domains impl rev checks domains order cb).successful +
        (process_domains impl rev checks domains order cb).failed = domains.length ∧
    (process_domains impl rev checks domains order cb).results.length = domains.length ∧
    ((process_domains impl rev checks domains order cb).results.map
        (fun r => r.domain)).Perm domains ∧
    ∀ l₁ l₂, order = l₁ ++ l₂ →
      (l₁.foldl (batch_step impl rev checks cb) (batch_init domains)).2.completed +
          (l₁.foldl (batch_step impl rev checks cb) (batch_init domains)).2.failed ≤
        domains.length ∧
      (l₁.foldl (batch_step impl rev checks cb) (batch_init domains)).2.completed ≤
        (process_domains impl rev checks domains order cb).successful ∧
      (l₁.foldl (batch_step impl rev checks cb) (batch_init domains)).2.failed ≤
        (process_domains impl rev checks domains order cb).failed := by
  have hres := batch_foldl_results impl rev checks cb order (batch_init domains)
  have hcomp := batch_foldl_completed impl rev checks cb order (batch_init domains)
  have hfail := batch_foldl_failed_noraise impl rev checks cb hcb order (batch_init domains)
  have hlen : order.length = domains.length := hperm.length_eq
  refine ⟨?_, ?_, ?_, ?_⟩
  · show (order.foldl (batch_step impl rev checks cb) (batch_init domains)).2.completed +
      (order.foldl (batch_step impl rev checks cb) (batch_init domains)).2.failed = domains.length
    rw [hcomp, hfail]
    simp [batch_init, hlen]
  · show (order.foldl (batch_step impl rev checks cb) (batch_init domains)).1.length = domains.length
    rw [hres]
    simp [batch_init, hlen]
  · show ((order.foldl (batch_step impl rev checks cb) (batch_init domains)).1.map
      (fun r => r.domain)).Perm domains
    rw [hres]
    have hdom : ∀ d, (process_single_domain impl rev checks d).domain = d := fun d => rfl
    simp only [batch_init, List.nil_append, List.map_map]
    have : (fun r => DomainResult.domain r) ∘ process_single_domain impl rev checks =
        fun d => d := by
      funext d
      exact hdom d
    rw [this]
    simpa using hperm
  · intro l₁ l₂ hsplit
    have hc1 := batch_foldl_completed impl rev checks cb l₁ (batch_init domains)
    have hf1 := batch_foldl_failed_noraise impl rev checks cb hcb l₁ (batch_init domains)
    have hl1 : l₁.length ≤ order.length := by
      rw [hsplit]
      simp
    refine ⟨?_, ?_, ?_⟩
    · rw [hc1, hf1]
      simp only [batch_init]
      calc 0 + l₁.length + 0 = l₁.length := by omega
        _ ≤ order.length := hl1
        _ = domains.length := hlen
    · show _ ≤ (order.foldl (batch_step impl rev checks cb) (batch_init domains)).2.completed
      rw [hc1, hcomp]
      simp only [batch_init]
      omega
    · show _ ≤ (order.foldl (batch_step impl rev checks cb) (batch_init domains)).2.failed
      rw [hf1, hfail]

/-- C3 witness: a concrete two-domain batch with no callback, completing
in reverse submission order, with the prefix property instantiated at the
split after the first completion. -/
theorem C3_batch_progress_witness :
    (process_domains implAllOk revNone ["delegation"] ["a.com", "b.com"]
        ["b.com", "a.com"] none).successful +
      (process_domains implAllOk revNone ["delegation"] ["a.com", "b.com"]
        ["b.com", "a.com"] none).failed = (["a.com", "b.com"] : List String).length ∧
    (process_domains implAllOk revNone ["delegation"] ["a.com", "b.com"]
        ["b.com", "a.com"] none).results.length = (["a.com", "b.com"] : List String).length ∧
    ((process_domains implAllOk revNone ["delegation"] ["a.com", "b.com"]
        ["b.com", "a.com"] none).results.map (fun r => r.domain)).Perm ["a.com", "b.com"] ∧
    ((["b.com"] : List String).foldl (batch_step implAllOk revNone ["delegation"] none)
          (batch_init ["a.com", "b.com"])).2.completed +
        ((["b.com"] : List String).foldl (batch_step implAllOk revNone ["delegation"] none)
          (batch_init ["a.com", "b.com"])).2.failed ≤
      (["a.com", "b.com"] : List String).length ∧
    ((["b.com"] : List String).foldl (batch_step implAllOk revNone ["delegation"] none)
          (batch_init ["a.com", "b.com"])).2.completed ≤
      (process_domains implAllOk revNone ["delegation"] ["a.com", "b.com"]
        ["b.com", "a.com"] none).successful ∧
    ((["b.com"] : List String).foldl (batch_step implAllOk revNone ["delegation"] none)
          (batch_init ["a.com", "b.com"])).2.failed ≤
      (process_domains implAllOk revNone ["delegation"] ["a.com", "b.com"]
        ["b.com", "a.com"] none).failed := by
  have h := C3_batch_progress implAllOk revNone ["delegation"] ["a.com", "b.com"]
    ["b.com", "a.com"] none (by decide) (fun f p hfp => nomatch hfp)
  have h4 := h.2.2.2 ["b.com"] ["a.com"] rfl
  exact ⟨h.1, h.2.1, h.2.2.1, h4.1, h4.2.1, h4.2.2⟩

/-- C4: an exception raised by a validator check (here: the first raising
plain-dispatch kind, after a prefix of non-raising kinds) is caught inside
`_process_single_domain`: the domain's result has status `"failed"` with
the exception message appended as the last entry of its errors list; and
the batch results are a pure per-domain map, so the failure neither
escapes `process_domains` nor changes any other domain's result. -/
theorem C4_exception_isolated (impl : String → String → Except String String)
    (rev : String → Option String) (checks : List String)
    (domain c msg : String) (pre post : List String)
    (hsplit : checks = pre ++ c :: post)
    (hplain : plain_check_kinds.contains c = true)
    (himpl : impl c domain = Except.error msg)
    (hpre : ∀ c2 ∈ pre, check_raises impl domain c2 = false)
    (domains order : List String) (cb : Option (BatchProgress → Except String Unit)) :
    (process_single_domain impl rev checks domain).status = "failed" ∧
    (process_single_domain impl rev checks domain).errors.getLast? = some msg ∧
    msg ∈ (process_single_domain impl rev checks domain).errors ∧
    (process_domains impl rev checks domains order cb).results =
      order.map (process_single_domain impl rev checks) := by
  obtain ⟨cs2, es2, heq⟩ := run_checks_no_raise_pre impl rev domain pre (c :: post) [] [] hpre
  have habort : run_checks impl rev domain (c :: post) cs2 es2 = ("failed", cs2, es2 ++ [msg]) := by
    simp only [run_checks, hplain, if_true, himpl]
  refine ⟨?_, ?_, ?_, ?_⟩
  · show (run_checks impl rev domain checks [] []).1 = "failed"
    rw [hsplit, heq, habort]
  · show (run_checks impl rev domain checks [] []).2.2.getLast? = some msg
    rw [hsplit, heq, habort]
    show (es2 ++ [msg]).getLast? = some msg
    exact List.getLast?_concat _
  · show msg ∈ (run_checks impl rev domain checks [] []).2.2
    rw [hsplit, heq, habort]
    exact List.mem_append_right _ (by simp)
  · show (order.foldl (batch_step impl rev checks cb) (batch_init domains)).1 =
      order.map (process_single_domain impl rev checks)
    rw [batch_foldl_results]
    simp [batch_init]

/-- C4 witness: with the delegation check raising `"boom"` after a
non-raising provider check, the failing domain's result is failed with the
message appended last, and a two-domain batch still maps every domain to
its own full result. -/
theorem C4_exception_isolated_witness :
    (process_single_domain implDelegationRaises revNone
        ["provider", "delegation", "bogus"] "bad.com").status = "failed" ∧
    (process_single_domain implDelegationRaises revNone
        ["provider", "delegation", "bogus"] "bad.com").errors.getLast? = some "boom" ∧
    "boom" ∈ (process_single_domain implDelegationRaises revNone
        ["provider", "delegation", "bogus"] "bad.com").errors ∧
    (process_domains implDelegationRaises revNone ["provider", "delegation", "bogus"]
        ["bad.com", "ok.com"] ["bad.com", "ok.com"] none).results =
      (["bad.com", "ok.com"] : List String).map
        (process_single_domain implDelegationRaises revNone
          ["provider", "delegation", "bogus"]) :=
  C4_exception_isolated implDelegationRaises revNone ["provider", "delegation", "bogus"]
    "bad.com" "delegation" "boom" ["provider"] ["bogus"] rfl (by decide) rfl
    (by decide) ["bad.com", "ok.com"] ["bad.com", "ok.com"] none

/-- C7 counterexample: when an earlier requested check raises, the unknown
kind is never reached — the domain's status is not `"success"` and no
`Unknown check type` error is recorded, refuting the claim's conjunction
for this bulk-processed domain and unknown kind `"bogus"`. -/
theorem C7_counterexample :
    (process_single_domain implDelegationRaises revNone
        ["delegation", "bogus"] "a.com").status ≠ "success" ∧
    "Unknown check type: bogus" ∉ (process_single_domain implDelegationRaises revNone
        ["delegation", "bogus"] "a.com").errors := by
  refine ⟨by decide, by decide⟩

/-- C7 amended: an unknown check kind adds an `Unknown check type` error
string and no checks entry, and by itself never changes the status: when
no requested check raises, the domain's status remains `"success"` while
the unknown-kind error is recorded.  (If another requested check raises,
the domain's status is `"failed"` and, when the raise precedes the unknown
kind, its error string is never recorded — see the counterexample.) -/
theorem C7_unknown_check (impl : String → String → Except String String)
    (rev : String → Option String) (domain kind : String) (checks : List String)
    (hnotplain : plain_check_kinds.contains kind = false)
    (hnotrev : kind ≠ "reverse-dns")
    (hmem : kind ∈ checks)
    (hnoraise : ∀ c ∈ checks, check_raises impl domain c = false) :
    (process_single_domain impl rev checks domain).status = "success" ∧
    ("Unknown check type: " ++ kind) ∈ (process_single_domain impl rev checks domain).errors ∧
    ((process_single_domain impl rev checks domain).checks.map Prod.fst).contains kind =
      false := by
  refine ⟨?_, ?_, ?_⟩
  · show (run_checks impl rev domain checks [] []).1 = "success"
    exact run_checks_status_ok impl rev domain checks [] [] hnoraise
  · obtain ⟨l₁, l₂, hsplit⟩ := List.append_of_mem hmem
    obtain ⟨cs2, es2, heq⟩ := run_checks_no_raise_pre impl rev domain l₁ (kind :: l₂) [] []
      (fun c2 hc2 => hnoraise c2 (hsplit ▸ List.mem_append_left _ hc2))
    show ("Unknown check type: " ++ kind) ∈ (run_checks impl rev domain checks [] []).2.2
    rw [hsplit, heq]
    have hstep : run_checks impl rev domain (kind :: l₂) cs2 es2 =
        run_checks impl rev domain l₂ cs2 (es2 ++ ["Unknown check type: " ++ kind]) := by
      simp only [run_checks, hnotplain, Bool.false_eq_true, if_false, hnotrev, if_neg,
        ite_false]
    rw [hstep]
    exact run_checks_errors_mono impl rev domain l₂ _ _ _ (List.mem_append_right _ (by simp))
  · show ((run_checks impl rev domain checks [] []).2.1.map Prod.fst).contains kind = false
    refine contains_false_of_not_mem ?_
    intro hk
    obtain ⟨p, hp, hpk⟩ := List.mem_map.mp hk
    rcases run_checks_checks_keys impl rev domain checks [] [] p hp with h1 | h2 | h3
    · exact absurd h1 (List.not_mem_nil p)
    · rw [hpk] at h2
      rw [hnotplain] at h2
      exact Bool.false_ne_true h2
    · rw [hpk] at h3
      exact hnotrev h3

/-- C7 witness: with no check raising, requesting `["delegation", "bogus"]`
leaves the domain successful, records the unknown-kind error, and adds no
checks entry under the unknown kind. -/
theorem C7_unknown_check_witness :
    (process_single_domain implAllOk revNone ["delegation", "bogus"] "a.com").status =
      "success" ∧
    ("Unknown check type: " ++ "bogus") ∈
      (process_single_domain implAllOk revNone ["delegation", "bogus"] "a.com").errors ∧
    ((process_single_domain implAllOk revNone
        ["delegation", "bogus"] "a.com").checks.map Prod.fst).contains "bogus" = false :=
  C7_unknown_check implAllOk revNone "a.com" "bogus" ["delegation", "bogus"]
    (by decide) (by decide) (by decide) (by decide)

/-- Helper: the recommendation list always has the fallback entry when no
rule fires, so it is never empty. -/
theorem if_nil_fallback_ne_nil (recs fallback : List String) (hf : fallback ≠ []) :
    (if recs = [] then fallback else recs) ≠ [] := by
  split
  · exact hf
  · assumption

/-- Helper: the recommendation list always has the fallback entry when no
rule fires, so it is never empty. -/
theorem add_analytics_recommendations_ne_nil (maxResp : Nat) (locations : List String)
    (anycast : Nat) (qsummary : List (String × Nat × Nat × Nat)) :
    add_analytics_recommendations maxResp locations anycast qsummary ≠ [] := by
  unfold add_analytics_recommendations
  exact if_nil_fallback_ne_nil _ _ (by simp)

/-- Helper: every generated summary carries a non-empty recommendation
list. -/
theorem generate_summary_recommendations_ne_nil (qd : QueryDist) (geo : GeoAnalysis)
    (perf : PerfAnalysis) (n : Nat) :
    (generate_analytics_summary qd geo perf n).recommendations ≠ [] := by
  show add_analytics_recommendations _ _ _ _ ≠ []
  exact add_analytics_recommendations_ne_nil _ _ _ _

/-- C8 counterexample: at duration 0 with a concrete monotone clock, the
`while datetime.now() < end_time` loop body never runs, so the summary
reports zero samples, not one; the recommendations list is nevertheless
non-empty. -/
theorem C8_counterexample :
    (analyze_domain_queries (fun i => i) 8 "example.com" 0 updId).summary.total_samples ≠ 1 ∧
    (analyze_domain_queries (fun i => i) 8 "example.com" 0 updId).summary.recommendations ≠
      [] := by
  refine ⟨by decide, by decide⟩

/-- C8 amended: for every monotone wall clock, calling
`analyze_domain_queries` with `duration_minutes = 0` returns a well-formed
analytics result whose summary reports `total_samples = 0` (the guard
`datetime.now() < end_time` is already false at the first check) and whose
recommendations list is non-null and non-empty. -/
theorem C8_zero_duration (clock : Nat → Nat) (fuel : Nat) (domain : String)
    (upd : QueryDist × GeoAnalysis × PerfAnalysis → Nat →
      QueryDist × GeoAnalysis × PerfAnalysis)
    (hmono : ∀ i j, i ≤ j → clock i ≤ clock j) :
    (analyze_domain_queries clock fuel domain 0 upd).summary.total_samples = 0 ∧
    (analyze_domain_queries clock fuel domain 0 upd).summary.recommendations ≠ [] := by
  have hloop : analytics_loop clock (clock 0 + 0 * 60) upd fuel 1 0
      (⟨[], [], []⟩, ⟨[], [], []⟩, ⟨[], []⟩) =
      (0, (⟨[], [], []⟩, ⟨[], [], []⟩, ⟨[], []⟩)) := by
    cases fuel with
    | zero => rfl
    | succ n =>
      have h1 : ¬ clock 1 < clock 0 + 0 * 60 := by
        have h2 := hmono 0 1 (by omega)
        omega
      simp only [analytics_loop]
      rw [if_neg h1]
  constructor
  · simp only [analyze_domain_queries]
    rw [hloop]
    rfl
  · simp only [analyze_domain_queries]
    rw [hloop]
    exact generate_summary_recommendations_ne_nil _ _ _ _


/-- C8 witness: the amended statement at the identity clock. -/
theorem C8_zero_duration_witness :
    (analyze_domain_queries (fun i => i) 5 "example.org" 0 updId).summary.total_samples = 0 ∧
    (analyze_domain_queries (fun i => i) 5 "example.org" 0 updId).summary.recommendations ≠
      [] :=
  C8_zero_duration (fun i => i) 5 "example.org" updId (fun i j h => h)

/-- Helper: `pyToLower` shifts uppercase code points by 32 and fixes
everything else. -/
theorem pyToLower_toNat (c : Char) :
    (pyToLower c).toNat = if 65 ≤ c.toNat ∧ c.toNat ≤ 90 then c.toNat + 32 else c.toNat := by
  unfold pyToLower
  by_cases h : 65 ≤ c.toNat ∧ c.toNat ≤ 90
  · rw [dif_pos h, if_pos h]
    rfl
  · rw [dif_neg h, if_neg h]

/-- Helper: `pyToLower` is the identity outside the uppercase range. -/
theorem pyToLower_eq_self {c : Char} (h : ¬(65 ≤ c.toNat ∧ c.toNat ≤ 90)) :
    pyToLower c = c := by
  unfold pyToLower
  rw [dif_neg h]

/-- Helper: lowering twice equals lowering once. -/
theorem pyToLower_idem (c : Char) : pyToLower (pyToLower c) = pyToLower c := by
  by_cases h : 65 ≤ c.toNat ∧ c.toNat ≤ 90
  · have h1 : (pyToLower c).toNat = c.toNat + 32 := by rw [pyToLower_toNat, if_pos h]
    exact pyToLower_eq_self (by omega)
  · rw [pyToLower_eq_self h, pyToLower_eq_self h]

/-- Helper: every character of a lowered list is fixed by `pyToLower`. -/
theorem mem_pyLower_fixed {l : List Char} {c : Char} (h : c ∈ pyLower l) :
    pyToLower c = c := by
  obtain ⟨c0, _, rfl⟩ := List.mem_map.mp h
  exact pyToLower_idem c0

/-- Helper: a list of `pyToLower`-fixed characters lowers to itself. -/
theorem pyLower_eq_self {l : List Char} (h : ∀ c ∈ l, pyToLower c = c) :
    pyLower l = l := by
  induction l with
  | nil => rfl
  | cons c t ih =>
    show pyToLower c :: pyLower t = c :: t
    rw [h c (List.mem_cons_self _ _), ih (fun x hx => h x (List.mem_cons_of_mem _ hx))]

/-- Helper: `dropWhile` is the identity when no element satisfies the
predicate. -/
theorem dropWhile_eq_self_all {p : Char → Bool} {l : List Char}
    (h : ∀ c ∈ l, p c = false) : l.dropWhile p = l := by
  cases l with
  | nil => rfl
  | cons c t =>
    rw [List.dropWhile_cons, if_neg (by simp [h c (List.mem_cons_self c t)])]

/-- Helper: stripping is the identity on whitespace-free lists. -/
theorem stripWs_eq_self {l : List Char} (h : ∀ c ∈ l, pyIsSpace c = false) :
    stripWs l = l := by
  unfold stripWs
  rw [dropWhile_eq_self_all h,
    dropWhile_eq_self_all (fun c hc => h c (List.mem_reverse.mp hc)),
    List.reverse_reverse]

/-- Helper: characters of a detected leading segment occur in the list. -/
theorem mem_of_hasPre : ∀ {p l : List Char}, hasPre p l = true → ∀ c ∈ p, c ∈ l := by
  intro p
  induction p with
  | nil =>
    intro l _ c hc
    simp at hc
  | cons a q ih =>
    intro l h c hc
    cases l with
    | nil => simp [hasPre] at h
    | cons b t =>
      simp only [hasPre, Bool.and_eq_true, beq_iff_eq] at h
      rcases List.mem_cons.mp hc with rfl | hcp
      · rw [h.1]
        exact List.mem_cons_self _ _
      · exact List.mem_cons_of_mem _ (ih h.2 c hcp)

/-- Helper: splitting never produces an empty part list. -/
theorem splitOnChar_ne_nil (sep : Char) : ∀ l, splitOnChar sep l ≠ [] := by
  intro l
  cases l with
  | nil => simp [splitOnChar]
  | cons c rest =>
    cases h : splitOnChar sep rest with
    | nil => simp only [splitOnChar, h]; split <;> simp
    | cons a t => simp only [splitOnChar, h]; split <;> simp

/-- Helper: every character of the input is the separator or occurs in
some part of the split. -/
theorem splitOnChar_mem_chars (sep : Char) :
    ∀ (l : List Char) (c : Char), c ∈ l →
      c = sep ∨ ∃ part ∈ splitOnChar sep l, c ∈ part := by
  intro l
  induction l with
  | nil =>
    intro c hc
    simp at hc
  | cons a rest ih =>
    intro c hc
    rcases List.mem_cons.mp hc with rfl | hcr
    · by_cases ha : c = sep
      · exact Or.inl ha
      · right
        cases h : splitOnChar sep rest with
        | nil => exact absurd h (splitOnChar_ne_nil sep rest)
        | cons p t =>
          refine ⟨c :: p, ?_, List.mem_cons_self _ _⟩
          simp only [splitOnChar, h, if_neg ha]
          exact List.mem_cons_self _ _
    · rcases ih c hcr with h1 | ⟨part, hp, hcp⟩
      · exact Or.inl h1
      · right
        cases h : splitOnChar sep rest with
        | nil => exact absurd h (splitOnChar_ne_nil sep rest)
        | cons p t =>
          rw [h] at hp
          by_cases ha : a = sep
          · refine ⟨part, ?_, hcp⟩
            simp only [splitOnChar, h, if_pos ha]
            exact List.mem_cons_of_mem _ hp
          · rcases List.mem_cons.mp hp with rfl | hpt
            · refine ⟨a :: part, ?_, List.mem_cons_of_mem _ hcp⟩
              simp only [splitOnChar, h, if_neg ha]
              exact List.mem_cons_self _ _
            · refine ⟨part, ?_, hcp⟩
              simp only [splitOnChar, h, if_neg ha]
              exact List.mem_cons_of_mem _ hpt

/-- Helper: characters of a valid label are alphanumeric, `-`, or `_`. -/
theorem validLabel_chars {l : List Char} (h : validLabel l = true) :
    ∀ c ∈ l, pyIsAlnumChar c = true ∨ c = '-' ∨ c = '_' := by
  intro c hc
  unfold validLabel at h
  simp only [Bool.and_eq_true] at h
  obtain ⟨⟨⟨⟨hne, hlen⟩, halnum⟩, hhead⟩, hlast⟩ := h
  by_cases hd : (c == '-' || c == '_') = true
  · right
    simpa using hd
  · left
    have hcf : c ∈ l.filter (fun c => !(c == '-' || c == '_')) :=
      List.mem_filter.mpr ⟨hc, by simp only [Bool.not_eq_true] at hd; simp [hd]⟩
    unfold pyIsAlnumStr at halnum
    rw [Bool.and_eq_true, List.all_eq_true] at halnum
    exact halnum.2 c hcf

/-- Helper: characters of a valid domain are alphanumeric, `-`, `_`, or
`.`. -/
theorem is_valid_domain_chars {d : List Char} (h : is_valid_domain d = true) :
    ∀ c ∈ d, pyIsAlnumChar c = true ∨ c = '-' ∨ c = '_' ∨ c = '.' := by
  intro c hc
  unfold is_valid_domain at h
  by_cases h0 : (d.isEmpty || decide (d.length > 253)) = true
  · rw [if_pos h0] at h
    exact absurd h (by simp)
  · rw [if_neg h0] at h
    by_cases h1 : decide ((domain_labels d).length < 2) = true
    · rw [if_pos h1] at h
      exact absurd h (by simp)
    · rw [if_neg h1] at h
      have hsplit : c = '.' ∨ ∃ part ∈ domain_labels d, c ∈ part := by
        unfold domain_labels
        by_cases hdot : (d.getLast? == some '.') = true
        · rw [if_pos hdot]
          have hd' : d.dropLast ++ ['.'] = d :=
            List.dropLast_append_getLast? '.' (by simpa using hdot)
          have hc2 := hc
          rw [← hd'] at hc2
          rcases List.mem_append.mp hc2 with h2 | h2
          · exact splitOnChar_mem_chars '.' _ c h2
          · exact Or.inl (by simpa using h2)
        · rw [if_neg hdot]
          exact splitOnChar_mem_chars '.' d c hc
      rcases hsplit with rfl | ⟨part, hpart, hcp⟩
      · exact Or.inr (Or.inr (Or.inr rfl))
      · have hv := List.all_eq_true.mp h part hpart
        rcases validLabel_chars hv c hcp with h2 | h2 | h2
        · exact Or.inl h2
        · exact Or.inr (Or.inl h2)
        · exact Or.inr (Or.inr (Or.inl h2))

/-- Helper: the protocol-stripping step only removes characters. -/
theorem strip_protocol_subset {l : List Char} : ∀ c ∈ strip_protocol l, c ∈ l := by
  intro c hc
  unfold strip_protocol at hc
  split at hc
  · exact List.mem_of_mem_drop hc
  · split at hc
    · exact List.mem_of_mem_drop hc
    · exact hc

/-- Helper: the path-stripping step only removes characters. -/
theorem strip_path_subset {l : List Char} : ∀ c ∈ strip_path l, c ∈ l := by
  intro c hc
  unfold strip_path at hc
  split at hc
  · exact (List.takeWhile_prefix _).subset hc
  · exact hc

/-- Helper: the port-stripping step only removes characters. -/
theorem strip_port_subset {ipv6p : List Char → Bool} {l : List Char} :
    ∀ c ∈ strip_port ipv6p l, c ∈ l := by
  intro c hc
  unfold strip_port at hc
  split at hc
  · exact (List.takeWhile_prefix _).subset hc
  · exact hc

/-- Helper: the protocol-stripping step fixes colon-free lists. -/
theorem strip_protocol_eq_self {l : List Char} (h : ':' ∉ l) : strip_protocol l = l := by
  have h1 : ¬ hasPre ("http://".data) l = true :=
    fun hp => h (mem_of_hasPre hp ':' (by decide))
  have h2 : ¬ hasPre ("https://".data) l = true :=
    fun hp => h (mem_of_hasPre hp ':' (by decide))
  unfold strip_protocol
  rw [if_neg h1, if_neg h2]

/-- Helper: the path-stripping step fixes slash-free lists. -/
theorem strip_path_eq_self {l : List Char} (h : '/' ∉ l) : strip_path l = l := by
  unfold strip_path
  rw [if_neg (fun hcon => h (List.mem_of_elem_eq_true hcon))]

/-- Helper: the port-stripping step fixes colon-free lists. -/
theorem strip_port_eq_self {ipv6p : List Char → Bool} {l : List Char} (h : ':' ∉ l) :
    strip_port ipv6p l = l := by
  unfold strip_port
  rw [if_neg]
  intro hcon
  rw [Bool.and_eq_true] at hcon
  exact h (List.mem_of_elem_eq_true hcon.1)

/-- Helper: a kept cleaned domain is the cleaning-chain output, non-empty
and valid. -/
theorem clean_one_domain_eq_some {ipv6p : List Char → Bool} {t out : List Char}
    (h : clean_one_domain ipv6p t = some out) :
    out = clean_steps ipv6p t ∧ out.isEmpty = false ∧ is_valid_domain out = true := by
  unfold clean_one_domain at h
  by_cases hc : (!(clean_steps ipv6p t).isEmpty && is_valid_domain (clean_steps ipv6p t)) = true
  · rw [if_pos hc] at h
    obtain rfl : clean_steps ipv6p t = out := Option.some.inj h
    rw [Bool.and_eq_true, Bool.not_eq_true'] at hc
    exact ⟨rfl, hc.1, hc.2⟩
  · rw [if_neg hc] at h
    exact absurd h (by simp)

/-- Helper: a domain kept by one cleaning pass is a fixed point of
cleaning: it is already stripped, lowercase, free of protocol prefix,
path and port, and valid, so a second pass returns it unchanged. -/
theorem clean_one_domain_fixpoint {ipv6p : List Char → Bool} {t out : List Char}
    (h : clean_one_domain ipv6p t = some out) :
    clean_one_domain ipv6p out = some out := by
  obtain ⟨hout, hne, hval⟩ := clean_one_domain_eq_some h
  have hlowmem : ∀ c ∈ out, pyToLower c = c := by
    intro c hc
    rw [hout] at hc
    exact mem_pyLower_fixed
      (strip_protocol_subset _ (strip_path_subset _ (strip_port_subset _ hc)))
  have hchars := is_valid_domain_chars hval
  have hnospace : ∀ c ∈ out, pyIsSpace c = false := by
    intro c hc
    rcases hchars c hc with h1 | h1 | h1 | h1
    · rw [pyIsAlnumChar, decide_eq_true_eq] at h1
      rw [pyIsSpace, decide_eq_false_iff_not]
      omega
    · rw [h1]; decide
    · rw [h1]; decide
    · rw [h1]; decide
  have hnocolon : ':' ∉ out := by
    intro hc
    rcases hchars ':' hc with h1 | h1 | h1 | h1 <;> exact absurd h1 (by decide)
  have hnoslash : '/' ∉ out := by
    intro hc
    rcases hchars '/' hc with h1 | h1 | h1 | h1 <;> exact absurd h1 (by decide)
  have hsteps : clean_steps ipv6p out = out := by
    unfold clean_steps
    rw [stripWs_eq_self hnospace, pyLower_eq_self hlowmem,
      strip_protocol_eq_self hnocolon, strip_path_eq_self hnoslash,
      strip_port_eq_self hnocolon]
  unfold clean_one_domain
  rw [hsteps, if_pos (by simp [hne, hval])]

/-- Helper: `filterMap` of a pointwise-`some`-fixed function is the
identity. -/
theorem filterMap_self {α : Type} {f : α → Option α} :
    ∀ {m : List α}, (∀ x ∈ m, f x = some x) → m.filterMap f = m := by
  intro m
  induction m with
  | nil => intro _; rfl
  | cons a t ih =>
    intro h
    rw [List.filterMap_cons]
    rw [h a (List.mem_cons_self _ _)]
    rw [ih (fun x hx => h x (List.mem_cons_of_mem _ hx))]

/-- C9: for every input text (and every behaviour of the external IPv6
test), the bulk-input loader — which splits on newline, comma, semicolon
and tab, ignores blank lines and lines starting with `#`, and splits
space-separated domains on one line into tokens — returns exactly the
cleaned forms of those tokens, every returned element passes
`is_valid_domain`, and no domain appears more than once. -/
theorem C9_parse_domains (ipv6p : List Char → Bool) (text : List Char) :
    (∀ d ∈ parse_domains_from_text ipv6p text, is_valid_domain d = true) ∧
    (parse_domains_from_text ipv6p text).Nodup ∧
    (∀ d, d ∈ parse_domains_from_text ipv6p text ↔
      ∃ tok ∈ text_tokens text, clean_one_domain ipv6p tok = some d) := by
  refine ⟨?_, List.nodup_dedup _, ?_⟩
  · intro d hd
    rw [parse_domains_from_text, clean_domain_list, List.mem_dedup, List.mem_filterMap] at hd
    obtain ⟨tok, htok, hsome⟩ := hd
    exact (clean_one_domain_eq_some hsome).2.2
  · intro d
    rw [parse_domains_from_text, clean_domain_list, List.mem_dedup, List.mem_filterMap]

/-- C10: `clean_domain_list` is idempotent up to set equality: every
domain it returns is already cleaned (a fixed point of the per-element
cleaning), so a second pass keeps the same set of domains. -/
theorem C10_clean_idempotent (ipv6p : List Char → Bool) (l : List (List Char)) :
    (∀ out ∈ clean_domain_list ipv6p l, clean_one_domain ipv6p out = some out) ∧
    (clean_domain_list ipv6p (clean_domain_list ipv6p l)).toFinset =
      (clean_domain_list ipv6p l).toFinset := by
  have hfix : ∀ out ∈ clean_domain_list ipv6p l, clean_one_domain ipv6p out = some out := by
    intro out hout
    rw [clean_domain_list, List.mem_dedup, List.mem_filterMap] at hout
    obtain ⟨t, _, hsome⟩ := hout
    exact clean_one_domain_fixpoint hsome
  refine ⟨hfix, ?_⟩
  have h2 : clean_domain_list ipv6p (clean_domain_list ipv6p l) = clean_domain_list ipv6p l := by
    rw [clean_domain_list, filterMap_self hfix]
    exact List.dedup_eq_self.mpr (List.nodup_dedup _)
  rw [h2]
